import Mathlib

set_option linter.unusedVariables false

/-!
Shallow embedding of the redirect-rule model and path-rewriting algorithm of
`readthedocs/redirects/models.py`.

Strings are modelled as `List Char` (`Str`).  Python string operations used by
the source (`startswith`, `endswith`, `in`, `split(tok)[0]`, `replace`,
`lstrip("/")`, slicing) are embedded as structurally recursive functions below.
The external collaborator `resolve_path` (PathResolver) is kept abstract: every
function that calls it takes a `ResolvePath` argument standing for
`resolve_path` with the owning project already fixed.
-/

abbrev Str := List Char

/-- The wildcard token of Exact redirects, the literal string `$rest`. -/
def restTok : Str := "$rest".toList

def slashS : Str := "/".toList

def dotHtmlS : Str := ".html".toList

def indexHtmlS : Str := "/index.html".toList

/-- Python `s.startswith(p)`. -/
def startswith (s p : Str) : Bool := p.isPrefixOf s

/-- Python `s.endswith(p)`. -/
def endswith (s p : Str) : Bool := p.isSuffixOf s

/-- Python `tok in s` (substring containment). -/
def hasSubstr (tok : Str) : Str → Bool
  | [] => tok.isPrefixOf []
  | c :: rest => tok.isPrefixOf (c :: rest) || hasSubstr tok rest

/-- Python `s.split(tok, maxsplit=1)[0]`: the portion of `s` strictly before
the first occurrence of `tok`, or all of `s` when `tok` does not occur. -/
def takeBeforeTok (tok : Str) : Str → Str
  | [] => []
  | c :: rest => if tok.isPrefixOf (c :: rest) then [] else c :: takeBeforeTok tok rest

/-- Python `s.replace(old, new, 1)`: replace the first (leftmost) occurrence
of `old` in `s` by `new`; an empty `old` matches at position 0. -/
def replaceFirst (old new : Str) : Str → Str
  | [] => if old.isPrefixOf [] then new else []
  | c :: rest =>
    if old.isPrefixOf (c :: rest) then new ++ (c :: rest).drop old.length
    else c :: replaceFirst old new rest

/-- Fuel-indexed helper for `replaceAll`; the fuel is an upper bound on the
length of the remaining input, so the `0` case is never reached when the
fuel starts at the input's length. -/
def replaceAllFuel (old new : Str) : Nat → Str → Str
  | _, [] => []
  | 0, s => s
  | fuel + 1, c :: rest =>
    if old.isPrefixOf (c :: rest) && !old.isEmpty then
      new ++ replaceAllFuel old new fuel (rest.drop (old.length - 1))
    else
      c :: replaceAllFuel old new fuel rest

/-- Python `s.replace(old, new)` for a non-empty `old` (the only use in the
source is `from_url.replace("$rest", "")`): replace every non-overlapping
occurrence of `old`, scanning left to right. -/
def replaceAll (old new s : Str) : Str := replaceAllFuel old new s.length s

/-- Python `s.lstrip("/")`: remove every leading `/`. -/
def lstripSlash (s : Str) : Str := s.dropWhile (· == '/')

/-- Python `re.match("^https?://", filename)` viewed as a Boolean: the
pattern matches exactly the strings starting with `http://` or `https://`. -/
def matchesHttp (filename : Str) : Bool :=
  startswith filename ("http://".toList) || startswith filename ("https://".toList)

/-- Models `re.sub(pat ++ "$", repl, s)` for the patterns `/`, `/index.html`
and `.html` used by the Sphinx rules.  The `$` anchor forces any match to end
at the end of the string, and the pattern has fixed length, so the only
candidate is the trailing `pat.length` characters; at every call site the
source has already checked `path.endswith(ending)` on the unstripped path, so
on all reachable inputs the regex match coincides with a literal suffix test
(the regex metacharacter `.` inside the patterns changes nothing there). -/
def reSubEnd (pat repl s : Str) : Str :=
  if endswith s pat then s.take (s.length - pat.length) ++ repl else s

/-- The `Redirect` model fields used by the resolution logic.  `project`,
`force`, `http_status`, `status` and the timestamps are carried by the source
model but never read by the matching/rewriting code embedded here. -/
structure Redirect where
  redirect_type : Str
  from_url : Str
  from_url_without_rest : Option Str
  to_url : Str
deriving DecidableEq, Repr

/-- The external `resolve_path(project=self.project, language=..., version_slug=...,
filename=...)` collaborator, with the project fixed: arguments are language,
version_slug, filename. -/
abbrev ResolvePath := Option Str → Option Str → Str → Str

/-- The closed enumeration of redirect types (`TYPE_CHOICES` keys). -/
def TYPE_CHOICES : List Str :=
  ["prefix".toList, "page".toList, "exact".toList,
   "sphinx_html".toList, "sphinx_htmldir".toList]

/-- `Redirect.get_full_path`: off-site escape hatch, else delegate to
`resolve_path`. -/
def get_full_path (rp : ResolvePath) (filename : Str)
    (language version_slug : Option Str) (allow_crossdomain : Bool) : Str :=
  if allow_crossdomain && matchesHttp filename then filename
  else rp language version_slug filename

/-- `Redirect.redirect_prefix`. -/
def redirect_prefix (rp : ResolvePath) (r : Redirect) (path full_path : Str)
    (language version_slug : Option Str) : Option Str :=
  if startswith path r.from_url then
    some (get_full_path rp (path.drop r.from_url.length) language version_slug false)
  else none

/-- `Redirect.redirect_page`. -/
def redirect_page (rp : ResolvePath) (r : Redirect) (path full_path : Str)
    (language version_slug : Option Str) : Option Str :=
  if path = r.from_url then
    some (get_full_path rp (lstripSlash r.to_url) language version_slug true)
  else none

/-- `Redirect.redirect_exact`.  `rp` is taken for signature parallelism but
never used: Exact rules return `to_url` (or the wildcard rewrite) verbatim. -/
def redirect_exact (rp : ResolvePath) (r : Redirect) (path full_path : Str)
    (language version_slug : Option Str) : Option Str :=
  if full_path = r.from_url then some r.to_url
  else if hasSubstr restTok r.from_url then
    if startswith full_path (takeBeforeTok restTok r.from_url) then
      some (replaceFirst (takeBeforeTok restTok r.from_url) r.to_url full_path)
    else none
  else none

/-- `Redirect.redirect_sphinx_html`: the source iterates over the endings
`["/", "/index.html"]` and takes the first that matches. -/
def redirect_sphinx_html (rp : ResolvePath) (r : Redirect) (path full_path : Str)
    (language version_slug : Option Str) : Option Str :=
  if endswith path slashS then
    some (get_full_path rp (reSubEnd slashS dotHtmlS (path.drop 1))
      language version_slug false)
  else if endswith path indexHtmlS then
    some (get_full_path rp (reSubEnd indexHtmlS dotHtmlS (path.drop 1))
      language version_slug false)
  else none

/-- `Redirect.redirect_sphinx_htmldir`. -/
def redirect_sphinx_htmldir (rp : ResolvePath) (r : Redirect) (path full_path : Str)
    (language version_slug : Option Str) : Option Str :=
  if endswith path dotHtmlS then
    some (get_full_path rp (reSubEnd dotHtmlS slashS (path.drop 1))
      language version_slug false)
  else none

/-- `Redirect.get_redirect_path`: the source looks the method up dynamically
with `getattr(self, "redirect_" + type)`; for a type outside the enumeration
there is no such method and Python raises `AttributeError` instead of
returning an absent value, embedded here as `Except.error`. -/
def get_redirect_path (rp : ResolvePath) (r : Redirect) (path full_path : Str)
    (language version_slug : Option Str) : Except Str (Option Str) :=
  if r.redirect_type = "prefix".toList then
    .ok ( redirect_prefix rp r path full_path language version_slug)
  else if r.redirect_type = "page".toList then
    .ok (redirect_page rp r path full_path language version_slug)
  else if r.redirect_type = "exact".toList then
    .ok (redirect_exact rp r path full_path language version_slug)
  else if r.redirect_type = "sphinx_html".toList then
    .ok (redirect_sphinx_html rp r path full_path language version_slug)
  else if r.redirect_type = "sphinx_htmldir".toList then
    .ok (redirect_sphinx_htmldir rp r path full_path language version_slug)
  else
    .error ("AttributeError: redirect_".toList ++ r.redirect_type)

/-- `Redirect.save`: recompute the denormalized `from_url_without_rest`
whenever the rule is an Exact redirect whose `from_url` contains `$rest`;
otherwise the stored field is left untouched. -/
def save (r : Redirect) : Redirect :=
  if r.redirect_type = "exact".toList ∧ hasSubstr restTok r.from_url = true then
    { r with from_url_without_rest := some (replaceAll restTok [] r.from_url) }
  else r

/-- Modelled from the spec: rule-load/validation of the `type` tag is done by
the web framework's form/model validation against `TYPE_CHOICES`, which is
outside the surveyed source; per the spec it rejects any tag outside the
closed enumeration with a descriptive error before the rule reaches
resolution. -/
def validate_redirect_type (t : Str) : Except Str Unit :=
  if t ∈ TYPE_CHOICES then .ok ()
  else .error ("Value is not a valid choice: ".toList ++ t)

/-- A concrete resolver used to instantiate theorems on sample inputs. -/
def sampleResolver : ResolvePath :=
  fun _ _ filename => "/en/latest/".toList ++ filename

/-- Sample wildcard Exact rule `from_url = "/docs/$rest"`, `to_url = "/v2/"`. -/
def exDocs : Redirect :=
  { redirect_type := "exact".toList
    from_url := "/docs/$rest".toList
    from_url_without_rest := none
    to_url := "/v2/".toList }

/-- Sample wildcard Exact rule whose `to_url` is later edited away from the
wildcard form; used to exercise `save` sequences. -/
def exStale : Redirect :=
  { redirect_type := "exact".toList
    from_url := "/docs/$rest".toList
    from_url_without_rest := none
    to_url := [] }

/-- Sample non-wildcard Exact rule with an empty `to_url` (redirect to the
project root). -/
def exPlain : Redirect :=
  { redirect_type := "exact".toList
    from_url := "/a".toList
    from_url_without_rest := none
    to_url := [] }

/-- Sample Exact rule whose `from_url` is exactly the wildcard token. -/
def exRoot : Redirect :=
  { redirect_type := "exact".toList
    from_url := "$rest".toList
    from_url_without_rest := none
    to_url := "/new".toList }

/-- Sample Prefix rule. -/
def rPre : Redirect :=
  { redirect_type := "prefix".toList
    from_url := "/old/".toList
    from_url_without_rest := none
    to_url := [] }

/-- Sample Page rule. -/
def rPage : Redirect :=
  { redirect_type := "page".toList
    from_url := "/install.html".toList
    from_url_without_rest := none
    to_url := "/tutorial/install.html".toList }

/-- Sample `sphinx_html` rule (its matching logic reads no rule field). -/
def rHtml : Redirect :=
  { redirect_type := "sphinx_html".toList
    from_url := []
    from_url_without_rest := none
    to_url := [] }

/-- Sample `sphinx_htmldir` rule. -/
def rHtmldir : Redirect :=
  { redirect_type := "sphinx_htmldir".toList
    from_url := []
    from_url_without_rest := none
    to_url := [] }

/-- Sample rule carrying a type tag outside the enumeration. -/
def rBogus : Redirect :=
  { redirect_type := "bogus".toList
    from_url := []
    from_url_without_rest := none
    to_url := [] }

/-- Dispatch lemma: on a `prefix`-typed rule, `get_redirect_path` invokes the
embedded `redirect_prefix` method. -/
theorem grp_eq_pre (rp : ResolvePath) (r : Redirect) (path full_path : Str)
    (language version_slug : Option Str) (ht : r.redirect_type = "prefix".toList) :
    get_redirect_path rp r path full_path language version_slug =
      .ok ( redirect_prefix rp r path full_path language version_slug) := by
  unfold get_redirect_path
  rw [ht, if_pos rfl]

/-- Dispatch lemma for `page`-typed rules. -/
theorem grp_eq_page (rp : ResolvePath) (r : Redirect) (path full_path : Str)
    (language version_slug : Option Str) (ht : r.redirect_type = "page".toList) :
    get_redirect_path rp r path full_path language version_slug =
      .ok (redirect_page rp r path full_path language version_slug) := by
  unfold get_redirect_path
  rw [ht, if_neg (by decide), if_pos rfl]

/-- Dispatch lemma for `exact`-typed rules. -/
theorem grp_eq_exact (rp : ResolvePath) (r : Redirect) (path full_path : Str)
    (language version_slug : Option Str) (ht : r.redirect_type = "exact".toList) :
    get_redirect_path rp r path full_path language version_slug =
      .ok (redirect_exact rp r path full_path language version_slug) := by
  unfold get_redirect_path
  rw [ht, if_neg (by decide), if_neg (by decide), if_pos rfl]

/-- Dispatch lemma for `sphinx_html`-typed rules. -/
theorem grp_eq_shtml (rp : ResolvePath) (r : Redirect) (path full_path : Str)
    (language version_slug : Option Str) (ht : r.redirect_type = "sphinx_html".toList) :
    get_redirect_path rp r path full_path language version_slug =
      .ok (redirect_sphinx_html rp r path full_path language version_slug) := by
  unfold get_redirect_path
  rw [ht, if_neg (by decide), if_neg (by decide), if_neg (by decide), if_pos rfl]

/-- Dispatch lemma for `sphinx_htmldir`-typed rules. -/
theorem grp_eq_shtmldir (rp : ResolvePath) (r : Redirect) (path full_path : Str)
    (language version_slug : Option Str) (ht : r.redirect_type = "sphinx_htmldir".toList) :
    get_redirect_path rp r path full_path language version_slug =
      .ok (redirect_sphinx_htmldir rp r path full_path language version_slug) := by
  unfold get_redirect_path
  rw [ht, if_neg (by decide), if_neg (by decide), if_neg (by decide),
    if_neg (by decide), if_pos rfl]

/-- A token that is a prefix of `s` occurs in `s` as a substring. -/
theorem hasSubstr_of_pre {tok s : Str} (h : tok.isPrefixOf s = true) :
    hasSubstr tok s = true := by
  cases s with
  | nil => simpa [hasSubstr] using h
  | cons c rest => simp [hasSubstr, h]

/-- When the token is a prefix of `s`, the portion of `s` before it is empty. -/
theorem takeBeforeTok_eq_nil {tok s : Str} (h : tok.isPrefixOf s = true) :
    takeBeforeTok tok s = [] := by
  cases s <;> simp [takeBeforeTok, h]

/-- Replacing the first occurrence of the empty string prepends the
replacement (Python `s.replace("", new, 1) = new + s`). -/
theorem replaceFirst_nil_old (new s : Str) : replaceFirst [] new s = new ++ s := by
  cases s <;> simp [replaceFirst, List.isPrefixOf]

/-- C1: for an Exact rule without the `$rest` wildcard, resolving returns
`to_url` verbatim iff `full_path = from_url` and `NO_MATCH` (`none`) otherwise;
the `path` argument and the resolver have no effect on the outcome, and the
returned `to_url` is distinct from the absent value even when empty. -/
theorem exact_nonwildcard_resolve (rp rp2 : ResolvePath) (r : Redirect)
    (path path2 full_path : Str) (language version_slug : Option Str)
    (ht : r.redirect_type = "exact".toList)
    (hw : hasSubstr restTok r.from_url = false) :
    get_redirect_path rp r path full_path language version_slug =
      .ok (if full_path = r.from_url then some r.to_url else none)
  ∧ get_redirect_path rp r path full_path language version_slug =
      get_redirect_path rp2 r path2 full_path language version_slug
  ∧ (Except.ok (some r.to_url) : Except Str (Option Str)) ≠ .ok none := by
  have h1 : ∀ (rps : ResolvePath) (p : Str),
      get_redirect_path rps r p full_path language version_slug =
        .ok (if full_path = r.from_url then some r.to_url else none) := by
    intro rps p
    rw [grp_eq_exact rps r p full_path language version_slug ht]
    unfold redirect_exact
    rw [hw]
    simp
  exact ⟨h1 rp path, by rw [h1 rp path, h1 rp2 path2], by simp⟩

/-- C2: for an Exact rule containing `$rest`, when `full_path` differs from
`from_url` the rule matches iff `full_path` starts with the portion of
`from_url` before the token, and then returns `full_path` with only the first
occurrence of that portion replaced by `to_url`; with concrete instances
`"/docs/$rest" → "/v2/"` on `"/docs/api/foo"`, `"/other/api/foo"` and a
path containing the matched portion twice (first-occurrence, not global). -/
theorem exact_wildcard_resolve (rp : ResolvePath) (r : Redirect)
    (path full_path : Str) (language version_slug : Option Str)
    (ht : r.redirect_type = "exact".toList)
    (hw : hasSubstr restTok r.from_url = true)
    (hne : full_path ≠ r.from_url) :
    get_redirect_path rp r path full_path language version_slug =
      .ok (if startswith full_path (takeBeforeTok restTok r.from_url) then
             some (replaceFirst (takeBeforeTok restTok r.from_url) r.to_url full_path)
           else none)
  ∧ get_redirect_path rp exDocs path ("/docs/api/foo".toList) language version_slug =
      .ok (some ("/v2/api/foo".toList))
  ∧ get_redirect_path rp exDocs path ("/other/api/foo".toList) language version_slug =
      .ok none
  ∧ get_redirect_path rp exDocs path ("/docs/a/docs/b".toList) language version_slug =
      .ok (some ("/v2/a/docs/b".toList)) := by
  refine ⟨?_, rfl, rfl, rfl⟩
  rw [grp_eq_exact rp r path full_path language version_slug ht]
  unfold redirect_exact
  rw [if_neg hne, if_pos hw]

/-- C3: a Prefix rule matches iff `path` starts with `from_url`, and then
resolves `path` with the `from_url` prefix removed through the PathResolver
(crossdomain not allowed); otherwise it returns `NO_MATCH`. -/
theorem prefix_rule_resolve (rp : ResolvePath) (r : Redirect)
    (path full_path : Str) (language version_slug : Option Str)
    (ht : r.redirect_type = "prefix".toList) :
    get_redirect_path rp r path full_path language version_slug =
      .ok (if startswith path r.from_url then
             some (rp language version_slug (path.drop r.from_url.length))
           else none) := by
  rw [grp_eq_pre rp r path full_path language version_slug ht]
  unfold redirect_prefix get_full_path
  simp

/-- C4: a Page rule matches iff `path` equals `from_url` exactly, and then the
destination is the PathResolver applied with crossdomain allowed to `to_url`
with its leading slashes stripped; `full_path` plays no role. -/
theorem page_rule_resolve (rp : ResolvePath) (r : Redirect)
    (path full_path full_path2 : Str) (language version_slug : Option Str)
    (ht : r.redirect_type = "page".toList) :
    get_redirect_path rp r path full_path language version_slug =
      .ok (if path = r.from_url then
             some (get_full_path rp (lstripSlash r.to_url) language version_slug true)
           else none)
  ∧ get_redirect_path rp r path full_path language version_slug =
      get_redirect_path rp r path full_path2 language version_slug := by
  constructor
  · rw [grp_eq_page rp r path full_path language version_slug ht]
    rfl
  · rw [grp_eq_page rp r path full_path language version_slug ht,
      grp_eq_page rp r path full_path2 language version_slug ht]
    rfl

/-- C10: for an Exact rule whose `from_url` begins with the `$rest` token
(empty portion before the token), any `full_path` different from `from_url`
matches, and the destination is `to_url` prepended to the whole `full_path`. -/
theorem exact_wildcard_empty_match (rp : ResolvePath) (r : Redirect)
    (path full_path : Str) (language version_slug : Option Str)
    (ht : r.redirect_type = "exact".toList)
    (hpre : restTok.isPrefixOf r.from_url = true)
    (hne : full_path ≠ r.from_url) :
    get_redirect_path rp r path full_path language version_slug =
      .ok (some (r.to_url ++ full_path)) := by
  rw [grp_eq_exact rp r path full_path language version_slug ht]
  unfold redirect_exact
  rw [if_neg hne, if_pos (hasSubstr_of_pre hpre), takeBeforeTok_eq_nil hpre]
  have hs : startswith full_path ([] : Str) = true := by
    simp [startswith]
  rw [hs, if_pos rfl, replaceFirst_nil_old]

/-- C5: a SphinxHtmlToHtmlDir (`sphinx_html`) rule returns `NO_MATCH` when
`path` ends with neither `/` nor `/index.html`; on a slash-leading path that
ends with one of them, the leading slash is stripped and the matched ending is
replaced through the end-anchored substitution, and the result is resolved via
the PathResolver with crossdomain not allowed; the substitution on a string
ending in `/index.html` replaces exactly the trailing 11 characters by
`.html`, so `"/guide/index.html"` resolves the filename `"guide.html"` and
`"/guide/other.html"` yields `NO_MATCH`. -/
theorem sphinx_html_resolve (rp : ResolvePath) (r : Redirect)
    (full_path : Str) (language version_slug : Option Str)
    (ht : r.redirect_type = "sphinx_html".toList) :
    (∀ path, endswith path slashS = false → endswith path indexHtmlS = false →
       get_redirect_path rp r path full_path language version_slug = .ok none)
  ∧ (∀ p, endswith ('/' :: p) slashS = true →
       get_redirect_path rp r ('/' :: p) full_path language version_slug =
         .ok (some (rp language version_slug (reSubEnd slashS dotHtmlS p))))
  ∧ (∀ p, endswith ('/' :: p) slashS = false → endswith ('/' :: p) indexHtmlS = true →
       get_redirect_path rp r ('/' :: p) full_path language version_slug =
         .ok (some (rp language version_slug (reSubEnd indexHtmlS dotHtmlS p))))
  ∧ (∀ s, endswith s indexHtmlS = true →
       reSubEnd indexHtmlS dotHtmlS s = s.take (s.length - 11) ++ dotHtmlS)
  ∧ (∀ s, endswith s indexHtmlS = false → reSubEnd indexHtmlS dotHtmlS s = s)
  ∧ get_redirect_path rp r ("/guide/index.html".toList) full_path language version_slug =
      .ok (some (rp language version_slug ("guide.html".toList)))
  ∧ get_redirect_path rp r ("/guide/other.html".toList) full_path language version_slug =
      .ok none := by
  refine ⟨?_, ?_, ?_, ?_, ?_, ?_, ?_⟩
  · intro path h1 h2
    rw [grp_eq_shtml rp r path full_path language version_slug ht]
    unfold redirect_sphinx_html
    rw [h1, h2]
    simp
  · intro p h
    rw [grp_eq_shtml rp r ('/' :: p) full_path language version_slug ht]
    unfold redirect_sphinx_html
    rw [h]
    simp [get_full_path]
  · intro p h1 h2
    rw [grp_eq_shtml rp r ('/' :: p) full_path language version_slug ht]
    unfold redirect_sphinx_html
    rw [h1, h2]
    simp [get_full_path]
  · intro s h
    unfold reSubEnd
    rw [h, if_pos rfl]
    have h11 : List.length indexHtmlS = 11 := rfl
    rw [h11]
  · intro s h
    unfold reSubEnd
    rw [h]
    simp
  · rw [grp_eq_shtml rp r ("/guide/index.html".toList) full_path language version_slug ht]
    rfl
  · rw [grp_eq_shtml rp r ("/guide/other.html".toList) full_path language version_slug ht]
    rfl

/-- C6: a SphinxHtmlDirToHtml (`sphinx_htmldir`) rule returns `NO_MATCH` when
`path` does not end with `.html`; on a slash-leading path ending with `.html`,
the leading slash is stripped, the trailing `.html` (exactly the last 5
characters, never a mid-string occurrence) is replaced by `/` and the result
is resolved via the PathResolver with crossdomain not allowed;
`"/guide/install.html"` resolves the filename `"guide/install/"` and
`"/guide/install"` yields `NO_MATCH`. -/
theorem sphinx_htmldir_resolve (rp : ResolvePath) (r : Redirect)
    (full_path : Str) (language version_slug : Option Str)
    (ht : r.redirect_type = "sphinx_htmldir".toList) :
    (∀ path, endswith path dotHtmlS = false →
       get_redirect_path rp r path full_path language version_slug = .ok none)
  ∧ (∀ p, endswith ('/' :: p) dotHtmlS = true →
       get_redirect_path rp r ('/' :: p) full_path language version_slug =
         .ok (some (rp language version_slug (reSubEnd dotHtmlS slashS p))))
  ∧ (∀ s, endswith s dotHtmlS = true →
       reSubEnd dotHtmlS slashS s = s.take (s.length - 5) ++ slashS)
  ∧ (∀ s, endswith s dotHtmlS = false → reSubEnd dotHtmlS slashS s = s)
  ∧ get_redirect_path rp r ("/guide/install.html".toList) full_path language version_slug =
      .ok (some (rp language version_slug ("guide/install/".toList)))
  ∧ get_redirect_path rp r ("/guide/install".toList) full_path language version_slug =
      .ok none := by
  refine ⟨?_, ?_, ?_, ?_, ?_, ?_⟩
  · intro path h
    rw [grp_eq_shtmldir rp r path full_path language version_slug ht]
    unfold redirect_sphinx_htmldir
    rw [h]
    simp
  · intro p h
    rw [grp_eq_shtmldir rp r ('/' :: p) full_path language version_slug ht]
    unfold redirect_sphinx_htmldir
    rw [h]
    simp [get_full_path]
  · intro s h
    unfold reSubEnd
    rw [h, if_pos rfl]
    have h5 : List.length dotHtmlS = 5 := rfl
    rw [h5]
  · intro s h
    unfold reSubEnd
    rw [h]
    simp
  · rw [grp_eq_shtmldir rp r ("/guide/install.html".toList) full_path language version_slug ht]
    rfl
  · rw [grp_eq_shtmldir rp r ("/guide/install".toList) full_path language version_slug ht]
    rfl

/-- C9: `get_full_path` returns `filename` unchanged when crossdomain is
allowed and `filename` matches `^https?://`; in every other case it delegates
to the canonical path builder `resolve_path`; being a total function into
`Str`, it always returns a string. -/
theorem get_full_path_spec (rp : ResolvePath) (filename : Str)
    (language version_slug : Option Str) :
    (matchesHttp filename = true →
       get_full_path rp filename language version_slug true = filename)
  ∧ (matchesHttp filename = false →
       get_full_path rp filename language version_slug true =
         rp language version_slug filename)
  ∧ get_full_path rp filename language version_slug false =
      rp language version_slug filename := by
  refine ⟨fun h => ?_, fun h => ?_, ?_⟩
  · unfold get_full_path
    rw [h]
    simp
  · unfold get_full_path
    rw [h]
    simp
  · unfold get_full_path
    simp

/-- C8: the modelled load-time validation accepts a type tag iff it is one of
the five enumerated choices; for every rule whose tag is one of those five,
resolution dispatch succeeds with `.ok`; for every other tag, dispatch raises
an `AttributeError` (modelled as `.error`) and never silently yields an `.ok`
no-match. -/
theorem redirect_type_validation (t : Str) (rp : ResolvePath) (r : Redirect)
    (path full_path : Str) (language version_slug : Option Str) :
    (validate_redirect_type t = .ok () ↔ t ∈ TYPE_CHOICES)
  ∧ (r.redirect_type ∈ TYPE_CHOICES →
       ∃ res, get_redirect_path rp r path full_path language version_slug = .ok res)
  ∧ (r.redirect_type ∉ TYPE_CHOICES →
       get_redirect_path rp r path full_path language version_slug =
         .error ("AttributeError: redirect_".toList ++ r.redirect_type)) := by
  refine ⟨?_, fun h => ?_, fun h => ?_⟩
  · unfold validate_redirect_type
    split <;> simp_all
  · simp only [TYPE_CHOICES, List.mem_cons, List.not_mem_nil, or_false] at h
    rcases h with h | h | h | h | h
    · exact ⟨_, grp_eq_pre rp r path full_path language version_slug h⟩
    · exact ⟨_, grp_eq_page rp r path full_path language version_slug h⟩
    · exact ⟨_, grp_eq_exact rp r path full_path language version_slug h⟩
    · exact ⟨_, grp_eq_shtml rp r path full_path language version_slug h⟩
    · exact ⟨_, grp_eq_shtmldir rp r path full_path language version_slug h⟩
  · unfold get_redirect_path
    rw [if_neg (fun he => h (by rw [he]; decide)),
      if_neg (fun he => h (by rw [he]; decide)),
      if_neg (fun he => h (by rw [he]; decide)),
      if_neg (fun he => h (by rw [he]; decide)),
      if_neg (fun he => h (by rw [he]; decide))]

/-- C7 counterexample: starting from an Exact rule with
`from_url = "/docs/$rest"`, saving, then updating `from_url` to `"/other"`
(which no longer contains the token) and saving again leaves
`from_url_without_rest` holding `"/docs/"` — a value derived from the earlier
`from_url`, neither cleared nor consistent with any derivation from the
current `from_url`. -/
theorem save_stale_value :
    (save { save exStale with from_url := "/other".toList }).from_url_without_rest =
      some ("/docs/".toList)
  ∧ hasSubstr restTok
      (save { save exStale with from_url := "/other".toList }).from_url = false
  ∧ (save { save exStale with from_url := "/other".toList }).from_url_without_rest ≠
      some (replaceAll restTok []
        (save { save exStale with from_url := "/other".toList }).from_url)
  ∧ (save { save exStale with from_url := "/other".toList }).from_url_without_rest ≠
      none := by
  refine ⟨rfl, rfl, ?_, ?_⟩ <;> decide

/-- C7 amended: whenever at save time the rule's type is Exact and `from_url`
contains `$rest`, the stored `from_url_without_rest` is recomputed to
`from_url` with every occurrence of the token removed, and `save` never
mutates `from_url`, `to_url` or the type, and is idempotent; when the
condition fails at a save, the field merely retains its previous value (it is
not kept consistent with the current `from_url`). -/
theorem save_rest_consistency (r : Redirect) :
    ((r.redirect_type = "exact".toList ∧ hasSubstr restTok r.from_url = true) →
       (save r).from_url_without_rest = some (replaceAll restTok [] r.from_url))
  ∧ (¬(r.redirect_type = "exact".toList ∧ hasSubstr restTok r.from_url = true) →
       (save r).from_url_without_rest = r.from_url_without_rest)
  ∧ (save r).from_url = r.from_url
  ∧ (save r).to_url = r.to_url
  ∧ (save r).redirect_type = r.redirect_type
  ∧ save (save r) = save r := by
  refine ⟨fun hc => ?_, fun hc => ?_, ?_, ?_, ?_, ?_⟩
  · unfold save
    rw [if_pos hc]
  · unfold save
    rw [if_neg hc]
  · unfold save
    split <;> rfl
  · unfold save
    split <;> rfl
  · unfold save
    split <;> rfl
  · by_cases hc : r.redirect_type = "exact".toList ∧ hasSubstr restTok r.from_url = true
    · unfold save
      rw [if_pos hc, if_pos hc]
    · unfold save
      rw [if_neg hc, if_neg hc]

/-- Witness for C1 at the rule `exPlain` (empty `to_url`). -/
theorem exact_nonwildcard_resolve_witness :
    exPlain.redirect_type = "exact".toList
  ∧ hasSubstr restTok exPlain.from_url = false
  ∧ (get_redirect_path sampleResolver exPlain [] ("/a".toList) none none =
       .ok (if ("/a".toList : Str) = exPlain.from_url then some exPlain.to_url else none)
   ∧ get_redirect_path sampleResolver exPlain [] ("/a".toList) none none =
       get_redirect_path sampleResolver exPlain ['x'] ("/a".toList) none none
   ∧ (Except.ok (some exPlain.to_url) : Except Str (Option Str)) ≠ .ok none) :=
  ⟨rfl, by decide,
   exact_nonwildcard_resolve sampleResolver sampleResolver exPlain [] ['x']
     ("/a".toList) none none rfl (by decide)⟩

/-- Witness for C2 at the rule `exDocs` and `full_path = "/docs/api/foo"`. -/
theorem exact_wildcard_resolve_witness :
    exDocs.redirect_type = "exact".toList
  ∧ hasSubstr restTok exDocs.from_url = true
  ∧ ("/docs/api/foo".toList : Str) ≠ exDocs.from_url
  ∧ get_redirect_path sampleResolver exDocs [] ("/docs/api/foo".toList) none none =
      .ok (if startswith ("/docs/api/foo".toList) (takeBeforeTok restTok exDocs.from_url) then
             some (replaceFirst (takeBeforeTok restTok exDocs.from_url) exDocs.to_url
               ("/docs/api/foo".toList))
           else none) :=
  ⟨rfl, by decide, by decide,
   (exact_wildcard_resolve sampleResolver exDocs [] ("/docs/api/foo".toList) none none
     rfl (by decide) (by decide)).1⟩

/-- Witness for C3 at the rule `rPre` and `path = "/old/x"`. -/
theorem prefix_rule_resolve_witness :
    rPre.redirect_type = "prefix".toList
  ∧ get_redirect_path sampleResolver rPre ("/old/x".toList) [] none none =
      .ok (if startswith ("/old/x".toList) rPre.from_url then
             some (sampleResolver none none (("/old/x".toList).drop rPre.from_url.length))
           else none) :=
  ⟨rfl, prefix_rule_resolve sampleResolver rPre ("/old/x".toList) [] none none rfl⟩

/-- Witness for C4 at the rule `rPage` and `path = "/install.html"`. -/
theorem page_rule_resolve_witness :
    rPage.redirect_type = "page".toList
  ∧ (get_redirect_path sampleResolver rPage ("/install.html".toList) [] none none =
       .ok (if ("/install.html".toList : Str) = rPage.from_url then
              some (get_full_path sampleResolver (lstripSlash rPage.to_url) none none true)
            else none)
   ∧ get_redirect_path sampleResolver rPage ("/install.html".toList) [] none none =
       get_redirect_path sampleResolver rPage ("/install.html".toList) ['x'] none none) :=
  ⟨rfl, page_rule_resolve sampleResolver rPage ("/install.html".toList) [] ['x'] none none rfl⟩

/-- Witness for C5 at the rule `rHtml` and `path = "/guide/index.html"`. -/
theorem sphinx_html_resolve_witness :
    rHtml.redirect_type = "sphinx_html".toList
  ∧ get_redirect_path sampleResolver rHtml ("/guide/index.html".toList) [] none none =
      .ok (some (sampleResolver none none ("guide.html".toList))) :=
  ⟨rfl, (sphinx_html_resolve sampleResolver rHtml [] none none rfl).2.2.2.2.2.1⟩

/-- Witness for C6 at the rule `rHtmldir` and `path = "/guide/install.html"`. -/
theorem sphinx_htmldir_resolve_witness :
    rHtmldir.redirect_type = "sphinx_htmldir".toList
  ∧ get_redirect_path sampleResolver rHtmldir ("/guide/install.html".toList) [] none none =
      .ok (some (sampleResolver none none ("guide/install/".toList))) :=
  ⟨rfl, (sphinx_htmldir_resolve sampleResolver rHtmldir [] none none rfl).2.2.2.2.1⟩

/-- Witness for C8 at the unknown tag `"bogus"`. -/
theorem redirect_type_validation_witness :
    ("bogus".toList : Str) ∉ TYPE_CHOICES
  ∧ get_redirect_path sampleResolver rBogus [] [] none none =
      .error ("AttributeError: redirect_".toList ++ rBogus.redirect_type) :=
  ⟨by decide,
   (redirect_type_validation ("bogus".toList) sampleResolver rBogus [] [] none none).2.2
     (by decide)⟩

/-- Witness for C9 at the off-site filename `"https://x"`. -/
theorem get_full_path_spec_witness :
    matchesHttp ("https://x".toList) = true
  ∧ get_full_path sampleResolver ("https://x".toList) none none true =
      "https://x".toList :=
  ⟨by decide, (get_full_path_spec sampleResolver ("https://x".toList) none none).1 (by decide)⟩

/-- Witness for the amended C7 at the rule `exDocs`. -/
theorem save_rest_consistency_witness :
    (exDocs.redirect_type = "exact".toList ∧ hasSubstr restTok exDocs.from_url = true)
  ∧ (save exDocs).from_url_without_rest = some (replaceAll restTok [] exDocs.from_url)
  ∧ (save exDocs).from_url = exDocs.from_url :=
  ⟨⟨rfl, by decide⟩,
   (save_rest_consistency exDocs).1 ⟨rfl, by decide⟩,
   (save_rest_consistency exDocs).2.2.1⟩

/-- Witness for C10 at the rule `exRoot` and `full_path = "/x/y"`. -/
theorem exact_wildcard_empty_match_witness :
    exRoot.redirect_type = "exact".toList
  ∧ restTok.isPrefixOf exRoot.from_url = true
  ∧ ("/x/y".toList : Str) ≠ exRoot.from_url
  ∧ get_redirect_path sampleResolver exRoot [] ("/x/y".toList) none none =
      .ok (some (exRoot.to_url ++ "/x/y".toList)) :=
  ⟨rfl, by decide, by decide,
   exact_wildcard_empty_match sampleResolver exRoot [] ("/x/y".toList) none none
     rfl (by decide) (by decide)⟩
